import Mathlib

/-!
Shallow embedding of the pow20 miner (src/src/main.rs, src/src/api.rs) and
proofs about its search engine, difficulty predicate, work-state refresh and
submission pipeline.

Conventions of the embedding:
* Bytes are `Nat` (values below 256 where the source produces them); byte
  buffers are `List Nat`.
* Rust machine integers become `Nat`/`Int` with explicit wrapping where it
  matters (`% 65536` for the `u16` outer counter).
* A Rust panic (out-of-bounds index or slice) is modelled as `Option.none` of
  the enclosing computation.
* Randomness and the hash primitive are injected as explicit parameters.
-/

set_option autoImplicit false

namespace Pow20

/-- The `Ticker` struct of src/src/api.rs: the current job description.
`difficulty` is an `i32` in the source, hence `Int` here. -/
structure Ticker where
  challenge : String
  current_location : String
  difficulty : Int
  ticker : String
  id : String
  deriving DecidableEq

/-- The `Solution` struct of src/src/main.rs. `nonce` and `hash` are
hex-encoded strings in the source; `challenge` is the raw byte vector. -/
structure Solution where
  nonce : String
  hash : String
  location : String
  token_id : String
  challenge : List Nat
  deriving DecidableEq

/-- The `Stats` struct of src/src/main.rs: two `i64` counters. -/
structure Stats where
  accepted : Int
  rejected : Int
  deriving DecidableEq

/-- The observable "new job!" print emitted by `update_work` when the
challenge changed; it carries the new ticker label and difficulty. -/
inductive RefreshEvent where
  | newJob (ticker : String) (difficulty : Int)
  deriving DecidableEq

/-- Lowercase hex digit for a value below 16, as produced by `hex::encode`. -/
def hexChar (n : Nat) : Char :=
  if n < 10 then Char.ofNat (48 + n) else Char.ofNat (87 + n)

/-- `hex::encode`: each byte becomes two lowercase hex digits. -/
def hexEncode (bs : List Nat) : String :=
  String.mk ((bs.map fun b => [hexChar (b / 16), hexChar (b % 16)]).flatten)

/-- Value of one hex digit character, accepting `0-9`, `a-f`, `A-F`. -/
def hexDigitVal (c : Char) : Option Nat :=
  if 48 ≤ c.toNat ∧ c.toNat ≤ 57 then some (c.toNat - 48)
  else if 97 ≤ c.toNat ∧ c.toNat ≤ 102 then some (c.toNat - 87)
  else if 65 ≤ c.toNat ∧ c.toNat ≤ 70 then some (c.toNat - 55)
  else none

/-- `hex::decode` on the character list: pairs of digits become bytes; an odd
length or a non-hex character is an error (`none`). -/
def hexDecodeCore : List Char → Option (List Nat)
  | [] => some []
  | [_] => none
  | c1 :: c2 :: rest =>
    match hexDigitVal c1, hexDigitVal c2, hexDecodeCore rest with
    | some hi, some lo, some tail => some ((hi * 16 + lo) :: tail)
    | _, _, _ => none

/-- `hex::decode` on a string. -/
def hexDecode (s : String) : Option (List Nat) :=
  hexDecodeCore s.toList

/-- The nibble-testing loop of main.rs lines 181-186, one constructor-level
step per iteration `i` with `fuel` iterations left.  `digest[i / 2]?` models
`solution[(i / 2) as usize]`: an out-of-range index is a Rust panic, hence
`none`.  `(1 - i % 2) * 4` is the source's `(1 - (i % 2)) << 2` and
`% 16` its `& 0x0f`. -/
def passesLoop (digest : List Nat) : Nat → Nat → Option Bool
  | _, 0 => some true
  | i, fuel + 1 =>
    match digest[i / 2]? with
    | none => none
    | some b =>
      if (b >>> ((1 - i % 2) * 4)) % 16 ≠ 0 then some false
      else passesLoop digest (i + 1) fuel

/-- The difficulty predicate of main.rs lines 181-186: run the nibble loop for
`i in 0..difficulty`.  For `difficulty ≤ 0` the Rust range `0..difficulty` is
empty, which `Int.toNat` reproduces. -/
def passes (digest : List Nat) (difficulty : Int) : Option Bool :=
  passesLoop digest 0 difficulty.toNat

/-- Specification-side view of nibble `i` of a digest: it lives in byte
`digest[i / 2]`, high half when `i` is even, low half when `i` is odd. -/
def nibble (digest : List Nat) (i : Nat) : Nat :=
  ((digest[i / 2]?).getD 0 >>> ((1 - i % 2) * 4)) % 16

/-- Boolean bridge: nibbles `i, i+1, ..., i+fuel-1` of the digest are all
zero. -/
def allZeroFrom (digest : List Nat) : Nat → Nat → Bool
  | _, 0 => true
  | i, fuel + 1 => (nibble digest i == 0) && allZeroFrom digest (i + 1) fuel

/-- `u32::to_le_bytes` of main.rs line 172: the 4-byte little-endian encoding
of the batch index. -/
def toLeBytes4 (n : Nat) : List Nat :=
  [n % 256, n / 256 % 256, n / (256 * 256) % 256, n / (256 * 256 * 256) % 256]

/-- `buf[start..start + src.length].copy_from_slice(src)` on a list model. -/
def writeRange (buf : List Nat) (start : Nat) (src : List Nat) : List Nat :=
  buf.take start ++ src ++ buf.drop (start + src.length)

/-- The preimage built in main.rs lines 175-178: a 64-byte zero buffer
receives the reversed challenge bytes at offset 0 and the 8 nonce bytes right
after them, and `&preimage[..challenge_bytes.len() + 8]` is hashed. -/
def attemptPreimage (challenge_bytes : List Nat) (pfx : Nat) (random : List Nat) : List Nat :=
  (writeRange (writeRange (List.replicate 64 0) 0 challenge_bytes)
      challenge_bytes.length (toLeBytes4 pfx ++ random)).take
    (challenge_bytes.length + 8)

/-- Modelled from the spec: `Hash::sha256d` lives in src/src/hash.rs, which is
not among the available sources; spec §4.1 defines the digest primitive as
double application of a 256-bit cryptographic hash (hash the input, then hash
the result).  The inner 256-bit hash is taken as the explicit parameter
`hash256`. -/
def sha256d (hash256 : List Nat → List Nat) (b : List Nat) : List Nat :=
  hash256 (hash256 b)

/-- One candidate attempt, the closure of main.rs lines 168-195 for batch
index `pfx` with the 4 drawn random bytes.  The outer `Option` is panic
(buffer copies out of bounds, or the nibble loop indexing past the digest);
the inner `Option` is the source's `Option<Solution>`. -/
def attempt (hash256 : List Nat → List Nat) (work : Ticker) (challenge_bytes : List Nat)
    (pfx : Nat) (random : List Nat) : Option (Option Solution) :=
  let data := toLeBytes4 pfx ++ random
  if challenge_bytes.length + 8 ≤ 64 then
    let digest := sha256d hash256 (attemptPreimage challenge_bytes pfx random)
    match passes digest work.difficulty with
    | none => none
    | some false => some none
    | some true =>
      some (some
        { nonce := hexEncode data
          hash := hexEncode digest
          location := work.current_location
          token_id := work.id
          challenge := challenge_bytes })
  else none

/-- The parallel batch of main.rs lines 166-200: one attempt per index in
`0..bucketSize`, each with its own 4 random bytes, keeping the passing
solutions.  A panic in any attempt aborts the batch (`none`). -/
def runBatch (hash256 : List Nat → List Nat) (work : Ticker) (challenge_bytes : List Nat)
    (randoms : Nat → List Nat) (bucketSize : Nat) : Option (List Solution) :=
  Option.map (List.filterMap id)
    ((List.range bucketSize).mapM fun pfx =>
      attempt hash256 work challenge_bytes pfx (randoms pfx))

/-- The submission choice of main.rs lines 216-221: when the collected results
are non-empty, `results[0]` is handed to `submit_work`; otherwise nothing. -/
def selectSubmission : List Solution → Option Solution
  | [] => none
  | r :: _ => some r

/-- One outer iteration of the search loop, main.rs lines 156-221: decode and
reverse the challenge, run the batch, evaluate `hex::encode(&challenge_bytes[0..4])`
for the status line (a panic when fewer than 4 bytes were decoded), and choose
the solution to submit.  Returns the collected solutions, the status-line
prefix and the submitted solution; `none` is a panic anywhere on the way. -/
def outerIteration (hash256 : List Nat → List Nat) (work : Ticker)
    (randoms : Nat → List Nat) (bucketSize : Nat) :
    Option (List Solution × String × Option Solution) :=
  match hexDecode work.challenge with
  | none => none
  | some decoded =>
    match runBatch hash256 work decoded.reverse randoms bucketSize with
    | none => none
    | some results =>
      if 4 ≤ decoded.reverse.length then
        some (results, hexEncode (decoded.reverse.take 4), selectSubmission results)
      else none

/-- One pass of the outer `loop` including the vestigial `u16` counter
`nonce` of main.rs lines 153 and 223: the iteration body never reads it, and
it is incremented (wrapping modulo 2^16) at the end. -/
def minerLoopStep (hash256 : List Nat → List Nat) (work : Ticker)
    (randoms : Nat → List Nat) (bucketSize : Nat) (nonce : Nat) :
    Option (List Solution × String × Option Solution) × Nat :=
  (outerIteration hash256 work randoms bucketSize, (nonce + 1) % 65536)

/-- `update_work` of main.rs lines 50-63: `fetched` is the outcome of
`fetch_ticker` (`none` is a fetch error).  On success, the held `Ticker` is
replaced wholesale exactly when the challenge differs, and the "new job!"
print with the new ticker and difficulty is the emitted event. -/
def update_work (cur : Ticker) (fetched : Option Ticker) : Ticker × Option RefreshEvent :=
  match fetched with
  | none => (cur, none)
  | some new_work =>
    if cur.challenge ≠ new_work.challenge then
      (new_work, some (RefreshEvent.newJob new_work.ticker new_work.difficulty))
    else
      (cur, none)

/-- A sequence of successful refreshes: fold `update_work` over the fetched
candidates, returning the final state and the number of emitted events. -/
def runRefreshes (cur : Ticker) : List Ticker → Ticker × Nat
  | [] => (cur, 0)
  | c :: cs =>
    let step := update_work cur (some c)
    let rest := runRefreshes step.1 cs
    (rest.1, (if step.2.isSome then 1 else 0) + rest.2)

/-- A sequence of refresh invocations where each fetch may fail (`none`). -/
def runRefreshesOpt (cur : Ticker) : List (Option Ticker) → Ticker × Nat
  | [] => (cur, 0)
  | f :: fs =>
    let step := update_work cur f
    let rest := runRefreshesOpt step.1 fs
    (rest.1, (if step.2.isSome then 1 else 0) + rest.2)

/-- Stated from the spec's words for comparison (spec §8, Work State Manager):
the number of distinct consecutive challenge changes along a sequence,
starting from current challenge `c`. -/
def countChallengeChanges (c : String) : List String → Nat
  | [] => 0
  | x :: xs => (if x ≠ c then 1 else 0) + countChallengeChanges x xs

/-- The outcome-handling block of `submit_work`, main.rs lines 77-101:
`submit_res` is `Ok((status_code, response))` or a transport error (`none`).
Status 201 increments `accepted`, any other status increments `rejected`, a
transport error touches neither counter. -/
def submitOutcome (stats : Stats) (submit_res : Option (Nat × String)) : Stats :=
  match submit_res with
  | some (status_code, _response) =>
    if status_code = 201 then
      { stats with accepted := stats.accepted + 1 }
    else
      { stats with rejected := stats.rejected + 1 }
  | none => stats

/-- `submit_work` of main.rs lines 65-104 as far as the stats are concerned:
before the outcome block it prints a diagnostic containing
`hex::encode(&solution.challenge[0..4])` (main.rs line 70), which panics when
the solution's challenge holds fewer than 4 bytes (`none`); otherwise the
counters are updated by `submitOutcome`.  The trailing `update_work` call is
modelled separately by `update_work`. -/
def submit_work (solution : Solution) (stats : Stats)
    (submit_res : Option (Nat × String)) : Option Stats :=
  if 4 ≤ solution.challenge.length then some (submitOutcome stats submit_res) else none

/-- Concrete stand-in for the missing inner 256-bit hash, used only to
evaluate the embedding at concrete inputs: a 32-byte output depending on the
whole input. -/
def testHash (b : List Nat) : List Nat :=
  List.replicate 32 ((b.foldl (fun a c => a + c) 0) % 256)

/-- Concrete random source for evaluation: every attempt draws `[0,0,0,0]`. -/
def rnd0 : Nat → List Nat :=
  fun _ => [0, 0, 0, 0]

/-- Concrete job with an empty challenge string (decodes to 0 bytes). -/
def tickerEmpty : Ticker :=
  { challenge := "", current_location := "loc0", difficulty := 2,
    ticker := "TCK", id := "id0" }

/-- Concrete job with a 4-byte challenge. -/
def tickerFour : Ticker :=
  { challenge := "00112233", current_location := "loc4", difficulty := 5,
    ticker := "TCK", id := "id4" }

/-- Concrete solution used to evaluate the submission pipeline. -/
def solutionW : Solution :=
  { nonce := "0000000000000000", hash := "00", location := "loc4",
    token_id := "id4", challenge := [1, 2, 3, 4] }

/-! ### Helper lemmas for the difficulty predicate -/

theorem passesLoop_eq_allZeroFrom (digest : List Nat) :
    ∀ fuel i, i + fuel ≤ 2 * digest.length →
      passesLoop digest i fuel = some (allZeroFrom digest i fuel) := by
  intro fuel
  induction fuel with
  | zero => intro i _; rfl
  | succ fuel ih =>
    intro i h
    have hidx : i / 2 < digest.length := by omega
    have hnib : nibble digest i = (digest[i / 2] >>> ((1 - i % 2) * 4)) % 16 := by
      simp [nibble, List.getElem?_eq_getElem hidx]
    simp only [passesLoop, allZeroFrom, List.getElem?_eq_getElem hidx]
    by_cases hz : (digest[i / 2] >>> ((1 - i % 2) * 4)) % 16 = 0
    · rw [if_neg (by simp [hz])]
      rw [ih (i + 1) (by omega)]
      have hb : (nibble digest i == 0) = true := by simp [hnib, hz]
      rw [hb, Bool.true_and]
    · rw [if_pos hz]
      have hb : (nibble digest i == 0) = false := by simp [hnib, hz]
      rw [hb, Bool.false_and]

theorem allZeroFrom_iff (digest : List Nat) :
    ∀ fuel i, allZeroFrom digest i fuel = true ↔
      ∀ j, j < fuel → nibble digest (i + j) = 0 := by
  intro fuel
  induction fuel with
  | zero => intro i; simp [allZeroFrom]
  | succ fuel ih =>
    intro i
    simp only [allZeroFrom, Bool.and_eq_true, beq_iff_eq, ih (i + 1)]
    constructor
    · rintro ⟨h0, hr⟩ j hj
      cases j with
      | zero => simpa using h0
      | succ j =>
        have hstep := hr j (by omega)
        have heq : i + 1 + j = i + (j + 1) := by omega
        rwa [heq] at hstep
    · intro hall
      refine ⟨by simpa using hall 0 (by omega), fun j hj => ?_⟩
      have hstep := hall (j + 1) (by omega)
      have heq : i + (j + 1) = i + 1 + j := by omega
      rwa [heq] at hstep

/-! ### Claims about the difficulty predicate -/

/-- C1: for every 32-byte digest and every difficulty `d` with `0 ≤ d ≤ 64`,
the predicate returns true iff each of the first `d` nibbles (byte `i / 2`,
high half for even `i`, low half for odd `i`) is zero; difficulty 0 always
returns true, and any non-zero required nibble makes it return false. -/
theorem difficulty_predicate_correct (digest : List Nat) (d : Int)
    (hlen : digest.length = 32) (h0 : 0 ≤ d) (h64 : d ≤ 64) :
    (passes digest d = some true ↔ ∀ i, i < d.toNat → nibble digest i = 0)
    ∧ passes digest 0 = some true
    ∧ (passes digest d = some false ↔ ∃ i, i < d.toNat ∧ nibble digest i ≠ 0) := by
  have hk : d.toNat ≤ 64 := by omega
  have key : passes digest d = some (allZeroFrom digest 0 d.toNat) := by
    unfold passes
    exact passesLoop_eq_allZeroFrom digest d.toNat 0 (by omega)
  have hiff := allZeroFrom_iff digest d.toNat 0
  simp only [Nat.zero_add] at hiff
  refine ⟨?_, rfl, ?_⟩
  · rw [key]
    simp only [Option.some.injEq]
    exact hiff
  · rw [key]
    simp only [Option.some.injEq]
    constructor
    · intro hfalse
      have hnot : ¬ allZeroFrom digest 0 d.toNat = true := by simp [hfalse]
      rw [hiff] at hnot
      push_neg at hnot
      exact hnot
    · intro hex
      have hnot : ¬ allZeroFrom digest 0 d.toNat = true := by
        rw [hiff]
        push_neg
        exact hex
      simpa using hnot

/-- Witness for C1 at the all-zero digest and difficulty 4. -/
theorem difficulty_predicate_correct_witness :
    ((List.replicate 32 0).length = 32 ∧ (0 : Int) ≤ 4 ∧ (4 : Int) ≤ 64)
    ∧ ((passes (List.replicate 32 0) 4 = some true ↔
          ∀ i, i < (4 : Int).toNat → nibble (List.replicate 32 0) i = 0)
        ∧ passes (List.replicate 32 0) 0 = some true
        ∧ (passes (List.replicate 32 0) 4 = some false ↔
            ∃ i, i < (4 : Int).toNat ∧ nibble (List.replicate 32 0) i ≠ 0)) :=
  ⟨⟨by decide, by decide, by decide⟩,
    difficulty_predicate_correct (List.replicate 32 0) 4 (by decide) (by decide) (by decide)⟩

/-- C2: evidence that the predicate is not guarded against difficulties beyond
the digest's 64 nibbles: at the all-zero 32-byte digest and difficulty 65 the
loop reaches nibble index 64 and indexes byte 32 of a 32-byte digest, a Rust
panic (modelled as `none` — neither `true` nor `false`). -/
theorem passes_out_of_bounds_panic :
    passes (List.replicate 32 0) 65 = none := by decide

/-- C10: for every digest and negative `i32` difficulty the loop
`for i in 0..difficulty` is empty, so the predicate returns true, exactly as
for difficulty 0. -/
theorem negative_difficulty_always_passes (digest : List Nat) (d : Int) (hneg : d < 0) :
    passes digest d = some true ∧ passes digest d = passes digest 0 := by
  have h0 : d.toNat = 0 := by omega
  unfold passes
  rw [h0]
  exact ⟨rfl, rfl⟩

/-- Witness for C10 at the all-255 digest and difficulty -7. -/
theorem negative_difficulty_always_passes_witness :
    ((-7 : Int) < 0)
    ∧ (passes (List.replicate 32 255) (-7) = some true
        ∧ passes (List.replicate 32 255) (-7) = passes (List.replicate 32 255) 0) :=
  ⟨by decide, negative_difficulty_always_passes (List.replicate 32 255) (-7) (by decide)⟩

/-! ### The preimage construction -/

theorem attemptPreimage_eq (cb : List Nat) (pfx : Nat) (r : List Nat) (hr : r.length = 4) :
    attemptPreimage cb pfx r = cb ++ (toLeBytes4 pfx ++ r) := by
  have hdata : (toLeBytes4 pfx ++ r).length = 8 := by simp [toLeBytes4, hr]
  have hdrop : List.drop (cb.length + 8) (cb ++ List.drop cb.length (List.replicate 64 0))
      = List.drop 8 (List.drop cb.length (List.replicate 64 0)) := by
    rw [← List.drop_drop, List.drop_left]
  have htake : List.take (cb.length + 8)
      (cb ++ (toLeBytes4 pfx ++ r) ++ List.drop 8 (List.drop cb.length (List.replicate 64 0)))
      = cb ++ (toLeBytes4 pfx ++ r) := by
    have hlen8 : cb.length + 8 = (cb ++ (toLeBytes4 pfx ++ r)).length := by simp [hdata]
    rw [hlen8]
    exact List.take_left _ _
  unfold attemptPreimage writeRange
  rw [hdata]
  simp only [List.take_zero, List.nil_append, Nat.zero_add]
  rw [List.take_left cb (List.drop cb.length (List.replicate 64 0))]
  rw [hdrop, htake]

/-- C4: for every batch index, 4 random bytes, and reversed challenge of at
most 56 bytes, the attempt hashes exactly `challenge_bytes ++ nonce` where the
nonce is the 4-byte little-endian index followed by the 4 random bytes; the
preimage length is challenge length + 8 and the copies into the 64-byte
buffer stay in bounds. -/
theorem attempt_hashes_exact_preimage (cb : List Nat) (pfx : Nat) (r : List Nat)
    (hash256 : List Nat → List Nat) (hlen : cb.length ≤ 56) (hr : r.length = 4) :
    attemptPreimage cb pfx r = cb ++ (toLeBytes4 pfx ++ r)
    ∧ (toLeBytes4 pfx ++ r).length = 8
    ∧ (attemptPreimage cb pfx r).length = cb.length + 8
    ∧ cb.length + 8 ≤ 64
    ∧ sha256d hash256 (attemptPreimage cb pfx r)
        = sha256d hash256 (cb ++ (toLeBytes4 pfx ++ r)) := by
  have hdata : (toLeBytes4 pfx ++ r).length = 8 := by simp [toLeBytes4, hr]
  have heq := attemptPreimage_eq cb pfx r hr
  refine ⟨heq, hdata, ?_, by omega, by rw [heq]⟩
  rw [heq]
  simp [hdata]

/-- Witness for C4 at a 2-byte challenge, index 5 and random bytes 9,9,9,9. -/
theorem attempt_hashes_exact_preimage_witness :
    (([1, 2] : List Nat).length ≤ 56 ∧ ([9, 9, 9, 9] : List Nat).length = 4)
    ∧ (attemptPreimage [1, 2] 5 [9, 9, 9, 9] = [1, 2] ++ (toLeBytes4 5 ++ [9, 9, 9, 9])
        ∧ (toLeBytes4 5 ++ [9, 9, 9, 9]).length = 8
        ∧ (attemptPreimage [1, 2] 5 [9, 9, 9, 9]).length = ([1, 2] : List Nat).length + 8
        ∧ ([1, 2] : List Nat).length + 8 ≤ 64
        ∧ sha256d testHash (attemptPreimage [1, 2] 5 [9, 9, 9, 9])
            = sha256d testHash ([1, 2] ++ (toLeBytes4 5 ++ [9, 9, 9, 9]))) :=
  ⟨⟨by decide, by decide⟩,
    attempt_hashes_exact_preimage [1, 2] 5 [9, 9, 9, 9] testHash (by decide) (by decide)⟩

/-! ### Work state refresh -/

/-- C5: a successful refresh replaces the held `Ticker` wholesale and emits
the "new job" event with the new ticker and difficulty exactly when the
candidate's challenge differs, and is a no-op otherwise; over any sequence of
successful refreshes the number of events equals the number of distinct
consecutive challenge changes, not the number of calls. -/
theorem refresh_emits_on_change (cur cand : Ticker) (cands : List Ticker) :
    update_work cur (some cand) =
      (if cur.challenge ≠ cand.challenge
        then (cand, some (RefreshEvent.newJob cand.ticker cand.difficulty))
        else (cur, none))
    ∧ (runRefreshes cur cands).2
        = countChallengeChanges cur.challenge (cands.map Ticker.challenge) := by
  refine ⟨rfl, ?_⟩
  induction cands generalizing cur with
  | nil => rfl
  | cons x xs ih =>
    by_cases hx : cur.challenge = x.challenge
    · simp [runRefreshes, countChallengeChanges, update_work, hx, ih cur]
    · have hx' : x.challenge ≠ cur.challenge := fun h => hx h.symm
      simp [runRefreshes, countChallengeChanges, update_work, hx, hx', ih x]

/-- C6: a failed fetch makes `update_work` a no-op — the held `Ticker` is
unchanged, no event is emitted and no error escapes — and a refresh sequence
with failures behaves exactly like the subsequence of successful fetches. -/
theorem failed_fetch_is_noop (cur : Ticker) (fetches : List (Option Ticker)) :
    update_work cur none = (cur, none)
    ∧ runRefreshesOpt cur fetches = runRefreshes cur (fetches.filterMap id) := by
  refine ⟨rfl, ?_⟩
  induction fetches generalizing cur with
  | nil => rfl
  | cons f fs ih =>
    cases f with
    | none => simpa [runRefreshesOpt, update_work] using ih cur
    | some t => simp [runRefreshesOpt, runRefreshes, ih]

/-! ### Submission pipeline -/

/-- C7: handling a submission outcome updates the counters as the spec says:
status 201 increments `accepted` by exactly 1 and leaves `rejected`
unchanged, any other status increments `rejected` by exactly 1 and leaves
`accepted` unchanged, and a transport failure changes neither counter.  The
`submit_work` conjunct ties the outcome block to the full function whenever
its diagnostic print does not panic (at least 4 challenge bytes). -/
theorem submission_counters (sol : Solution) (stats : Stats) (sc : Nat) (body : String)
    (res : Option (Nat × String)) (h4 : 4 ≤ sol.challenge.length) (hsc : sc ≠ 201) :
    submit_work sol stats res = some (submitOutcome stats res)
    ∧ submitOutcome stats (some (201, body))
        = { accepted := stats.accepted + 1, rejected := stats.rejected }
    ∧ submitOutcome stats (some (sc, body))
        = { accepted := stats.accepted, rejected := stats.rejected + 1 }
    ∧ submitOutcome stats none = stats := by
  refine ⟨by simp [submit_work, h4], by simp [submitOutcome], ?_, rfl⟩
  simp [submitOutcome, hsc]

/-- Witness for C7 at counters (2, 3), status 400 and a 4-byte challenge. -/
theorem submission_counters_witness :
    (4 ≤ solutionW.challenge.length ∧ (400 : Nat) ≠ 201)
    ∧ (submit_work solutionW ⟨2, 3⟩ (some (400, "dup"))
          = some (submitOutcome ⟨2, 3⟩ (some (400, "dup")))
        ∧ submitOutcome ⟨2, 3⟩ (some (201, "ok"))
            = { accepted := (2 : Int) + 1, rejected := (3 : Int) }
        ∧ submitOutcome ⟨2, 3⟩ (some (400, "ok"))
            = { accepted := (2 : Int), rejected := (3 : Int) + 1 }
        ∧ submitOutcome ⟨2, 3⟩ none = ⟨2, 3⟩) :=
  ⟨⟨by decide, by decide⟩,
    submission_counters solutionW ⟨2, 3⟩ 400 "ok" (some (400, "dup")) (by decide) (by decide)⟩

/-! ### The outer search iteration -/

/-- C3: evidence that an empty decoded challenge is not processed like any
other byte string: with challenge `""` (0 decoded bytes) the iteration's
status line evaluates `hex::encode(&challenge_bytes[0..4])` (main.rs line
209), an out-of-range slice of the 0-byte challenge, so the iteration panics
(`none`) instead of completing. -/
theorem empty_challenge_iteration_panics :
    outerIteration testHash tickerEmpty rnd0 1 = none := by decide

/-- C8: whenever an outer iteration completes, the solution it hands to the
submission task is `selectSubmission` of the collected results: the first
element when the collection is non-empty, nothing when it is empty. -/
theorem batch_submits_first (hash256 : List Nat → List Nat) (work : Ticker)
    (randoms : Nat → List Nat) (bucketSize : Nat) (results : List Solution)
    (report : String) (submitted : Option Solution)
    (h : outerIteration hash256 work randoms bucketSize = some (results, report, submitted)) :
    submitted = selectSubmission results
    ∧ (results = [] → submitted = none)
    ∧ (∀ r rest, results = r :: rest → submitted = some r) := by
  unfold outerIteration at h
  split at h
  · exact Option.noConfusion h
  · split at h
    · exact Option.noConfusion h
    · split at h
      · simp only [Option.some.injEq, Prod.mk.injEq] at h
        obtain ⟨hres, -, hsub⟩ := h
        subst hres
        refine ⟨hsub.symm, fun hnil => ?_, fun r rest hcons => ?_⟩
        · rw [← hsub, hnil]; rfl
        · rw [← hsub, hcons]; rfl
      · exact Option.noConfusion h

/-- Witness for C8: a one-attempt batch on a 4-byte challenge whose digest
fails difficulty 5, so the collection is empty and nothing is submitted. -/
theorem batch_submits_first_witness :
    outerIteration testHash tickerFour rnd0 1 = some ([], "33221100", none)
    ∧ ((none : Option Solution) = selectSubmission []
        ∧ (([] : List Solution) = [] → (none : Option Solution) = none)
        ∧ (∀ r rest, ([] : List Solution) = r :: rest → (none : Option Solution) = some r)) :=
  ⟨by decide, batch_submits_first testHash tickerFour rnd0 1 [] "33221100" none (by decide)⟩

/-- C9: for fixed challenge bytes, nonce bytes and difficulty, the attempt's
digest and pass/fail outcome are deterministic — two evaluations agree — and
the iteration's outcome does not depend on the vestigial outer-loop `nonce`
counter, which the hashing logic never reads. -/
theorem search_check_deterministic (hash256 : List Nat → List Nat) (work : Ticker)
    (cb : List Nat) (pfx : Nat) (r : List Nat) (randoms : Nat → List Nat)
    (bucketSize n1 n2 : Nat) :
    attempt hash256 work cb pfx r = attempt hash256 work cb pfx r
    ∧ sha256d hash256 (cb ++ (toLeBytes4 pfx ++ r))
        = sha256d hash256 (cb ++ (toLeBytes4 pfx ++ r))
    ∧ (minerLoopStep hash256 work randoms bucketSize n1).1
        = (minerLoopStep hash256 work randoms bucketSize n2).1 :=
  ⟨rfl, rfl, rfl⟩

end Pow20
